import Mathlib

/-!
Verification development for the OpenE2EE hybrid-encryption envelope library
(src/unnamed/part_000, the `OpenE2EE` class, and src/lib/pgp.ts, the
`PGPService` wrapper over the openpgp crypto provider).

Modelling choices:

* All TypeScript strings and blobs (plaintext, armored keys, armored
  ciphertexts, hex session keys) live in one symbolic type `Data`.  The
  crypto provider (openpgp, out of scope per the spec) is modelled
  symbolically: asymmetric encryption records the signer id, the recipient
  key-pair ids and the payload; symmetric encryption records the password
  and the payload.  Decryption succeeds exactly under the conditions the
  provider documents (decryption key among the recipients; signer inside
  the supplied verification set, since `expectSigned` is always on).
* Randomness (key-pair generation, session-key generation) is modelled by
  an explicit `fresh : Nat` argument supplying the fresh value.
* TypeScript `as` casts on possibly-undefined key handles are modelled by
  passing the `Option`-typed handle through to the provider unchanged; the
  provider fails with a `missingKey` error when handed an absent handle,
  mirroring openpgp's rejection of `undefined` key arguments.
* Failures are `Except PGPError`; `PGPError` carries the operation-name
  tag that `tryCatch` (src/lib/error.ts, not under src/) attaches, with
  the tag strings taken verbatim from src/lib/pgp.ts, and an error kind
  from the spec's taxonomy (section 7).
* `Promise.all` of independent sub-operations is modelled sequentially in
  the order the operations are listed; no claim depends on which of two
  simultaneously failing branches reports first.
-/

/-- Symbolic universe of TypeScript strings: plain text, armored key
material, hex-encoded session keys, and armored ciphertexts. -/
inductive Data where
  | raw : String → Data
  | hexKey : Nat → Data
  | armoredPub : Nat → Data
  | armoredPriv : Nat → Data → Data
  | asym : Nat → List Nat → Data → Data
  | sym : Data → Data → Data
  | env : Data → Data → Data
deriving DecidableEq

/-- Error kinds, from the spec's error taxonomy (section 7) plus
`missingKey` for the crypto provider rejecting an absent (undefined) key
handle.  The `state` kind exists only to state the spec's "state error"
claims; no code path produces it. -/
inductive ErrKind where
  | keyParse
  | authentication
  | keyGeneration
  | derivation
  | encryption
  | decryption
  | signatureVerification
  | envelopeFormat
  | missingKey
  | state
deriving DecidableEq

/-- Tagged error: `scope` is the operation-name tag attached by the
`tryCatch` wrapper (tag strings verbatim from src/lib/pgp.ts). -/
structure PGPError where
  scope : String
  kind : ErrKind
deriving DecidableEq

/-- Parsed, usable (decrypted) private key handle of key pair `keyId`. -/
structure PGPPrivateKey where
  keyId : Nat
deriving DecidableEq

/-- Parsed public key handle of key pair `keyId`. -/
structure PGPPublicKey where
  keyId : Nat
deriving DecidableEq

/-- Parsed but still passphrase-locked private key handle
(the output of `readPrivateKey`). -/
structure PGPLockedPrivateKey where
  keyId : Nat
  passphrase : Data
deriving DecidableEq

namespace PGPService

/-- PGPService.generateKeyPair: fresh armored key pair, private half
protected by the passphrase.  `fresh` supplies the new pair's identity. -/
def generateKeyPair (pass _userId : Data) (fresh : Nat) :
    Except PGPError (Data × Data) :=
  .ok (.armoredPriv fresh pass, .armoredPub fresh)

/-- PGPService.generateEncryptionKey: fresh session key, hex encoded,
bound to the given public key.  Fails when handed an absent handle
(the TypeScript `as`-cast of an undefined field). -/
def generateEncryptionKey (pk : Option PGPPublicKey) (fresh : Nat) :
    Except PGPError Data :=
  match pk with
  | some _ => .ok (.hexKey fresh)
  | none => .error ⟨"pgp.generateEncryptionKey", .missingKey⟩

/-- PGPService.readPublicKey: parse an armored public key. -/
def readPublicKey (d : Data) : Except PGPError PGPPublicKey :=
  match d with
  | .armoredPub n => .ok ⟨n⟩
  | _ => .error ⟨"pgp.readPublicKey", .keyParse⟩

/-- PGPService.readPrivateKey: parse an armored private key; the result is
still passphrase-locked. -/
def readPrivateKey (d : Data) : Except PGPError PGPLockedPrivateKey :=
  match d with
  | .armoredPriv n pass => .ok ⟨n, pass⟩
  | _ => .error ⟨"pgp.readPrivateKey", .keyParse⟩

/-- PGPService.decryptPrivateKey: parse then unlock with the passphrase;
wrong passphrase is an authentication failure. -/
def decryptPrivateKey (armored pass : Data) : Except PGPError PGPPrivateKey :=
  match readPrivateKey armored with
  | .error e => .error e
  | .ok lk =>
    if lk.passphrase = pass then .ok ⟨lk.keyId⟩
    else .error ⟨"pgp.decryptPrivateKey", .authentication⟩

/-- PGPService.encryptAsymmetric: encrypt to the recipient list, signed by
the private key.  Absent (undefined) handles are rejected by the
provider. -/
def encryptAsymmetric (sk : Option PGPPrivateKey)
    (pks : List (Option PGPPublicKey)) (d : Data) : Except PGPError Data :=
  match sk with
  | none => .error ⟨"pgp.encryptAsymmetric", .missingKey⟩
  | some sk =>
    if pks.any (fun p => p.isNone) then
      .error ⟨"pgp.encryptAsymmetric", .missingKey⟩
    else
      .ok (.asym sk.keyId ((pks.filterMap id).map PGPPublicKey.keyId) d)

/-- PGPService.decryptAsymmetric: read the armored message, decrypt with
the private key, and verify the mandatory signature (`expectSigned` is
always set) against the supplied verification keys. -/
def decryptAsymmetric (sk : Option PGPPrivateKey)
    (vks : List (Option PGPPublicKey)) (d : Data) : Except PGPError Data :=
  match d with
  | .asym signer recips payload =>
    match sk with
    | none => .error ⟨"pgp.decryptAsymmetric", .missingKey⟩
    | some sk =>
      if vks.any (fun v => v.isNone) then
        .error ⟨"pgp.decryptAsymmetric", .missingKey⟩
      else if sk.keyId ∈ recips then
        if signer ∈ (vks.filterMap id).map PGPPublicKey.keyId then
          .ok payload
        else .error ⟨"pgp.decryptAsymmetric", .signatureVerification⟩
      else .error ⟨"pgp.decryptAsymmetric", .decryption⟩
  | _ => .error ⟨"pgp.decryptAsymmetric", .decryption⟩

/-- PGPService.encrypt: symmetric (password-based) encryption with the
session key as password. -/
def encrypt (key d : Data) : Except PGPError Data :=
  .ok (.sym key d)

/-- PGPService.decrypt: symmetric (password-based) decryption. -/
def decrypt (key d : Data) : Except PGPError Data :=
  match d with
  | .sym pass payload =>
    if pass = key then .ok payload
    else .error ⟨"pgp.decrypt", .decryption⟩
  | _ => .error ⟨"pgp.decrypt", .decryption⟩

end PGPService

/-- Modelled from the spec: `writeEncryptedMessage` from ./models (not
under src/), at the symbolic level — a lossless, content-agnostic packing
of the pair (wrapped key, encrypted data) into one transportable string
(spec section 4.2). -/
def writeEnvelope (encryptedKey encryptedData : Data) : Data :=
  .env encryptedKey encryptedData

/-- Modelled from the spec: `readEncryptedMessage` from ./models (not
under src/), at the symbolic level — unpack an envelope back into its two
ciphertext blobs, failing on a string that is not a packed envelope. -/
def readEnvelope (d : Data) : Except PGPError (Data × Data) :=
  match d with
  | .env k dat => .ok (k, dat)
  | _ => .error ⟨"readEncryptedMessage", .envelopeFormat⟩

/-- Sequential model of `Promise.all(externalEncryptionKeys.map(readPublicKey))`
inside OpenE2EE.decrypt. -/
def readPublicKeys : List Data → Except PGPError (List PGPPublicKey)
  | [] => .ok []
  | d :: ds =>
    match PGPService.readPublicKey d with
    | .error e => .error e
    | .ok k =>
      match readPublicKeys ds with
      | .error e => .error e
      | .ok ks => .ok (k :: ks)

/-- Result of OpenE2EE.encrypt (./models MessageItemEncrypted): the raw
session key and the packed envelope. -/
structure MessageItemEncrypted where
  key : Data
  encryptedMessage : Data
deriving DecidableEq

/-- Result of OpenE2EE.decrypt (./models MessageItem): recovered session
key and plaintext. -/
structure MessageItem where
  key : Data
  data : Data
deriving DecidableEq

/-- Result of OpenE2EE.share (./models ShareItemOut). -/
structure ShareItemOut where
  senderPublicKey : Data
  receiverEncryptedMessage : Data
deriving DecidableEq

/-- Result of OpenE2EE.shareNew (./models ShareNewItemOut). -/
structure ShareNewItemOut where
  senderPublicKey : Data
  senderEncryptedMessage : Data
  receiverEncryptedMessage : Data
deriving DecidableEq

/-- Result of OpenE2EE.exportMasterKeys. -/
structure MasterKeys where
  privateKey : Data
  publicKey : Data
deriving DecidableEq

/-- The OpenE2EE class state: passphrase and userId from the constructor,
optional key handles and their exportable armored texts (field
initializers are the empty string). -/
structure OpenE2EE where
  passphrase : Data
  userId : Data
  privateKey : Option PGPPrivateKey
  privateKeyEncryptedText : Data
  publicKey : Option PGPPublicKey
  publicKeyText : Data
deriving DecidableEq

namespace OpenE2EE

/-- The OpenE2EE constructor: stores userId and passphrase; key handles
absent, armored texts initialized to the empty string. -/
def new (userId passphrase : Data) : OpenE2EE :=
  { passphrase := passphrase
    userId := userId
    privateKey := none
    privateKeyEncryptedText := .raw ""
    publicKey := none
    publicKeyText := .raw "" }

/-- OpenE2EE.build: generate a fresh key pair, decrypt the private half
with the constructor passphrase, parse the public half, populate the
state. -/
def build (st : OpenE2EE) (fresh : Nat) : Except PGPError OpenE2EE :=
  match PGPService.generateKeyPair st.passphrase st.userId fresh with
  | .error e => .error e
  | .ok (privateKey, publicKey) =>
    match PGPService.decryptPrivateKey privateKey st.passphrase with
    | .error e => .error e
    | .ok sk =>
      match PGPService.readPublicKey publicKey with
      | .error e => .error e
      | .ok pk =>
        .ok { st with
              privateKey := some sk
              publicKey := some pk
              privateKeyEncryptedText := privateKey
              publicKeyText := publicKey }

/-- OpenE2EE.load: decrypt the supplied private key with the constructor
passphrase and parse the supplied public key, then populate the state.
The two provider calls run under `Promise.all`; the state is assigned
only after both succeed, so a failing load leaves the state unchanged. -/
def load (st : OpenE2EE) (encryptedPrivateKey publicKey : Data) :
    Except PGPError OpenE2EE :=
  match PGPService.decryptPrivateKey encryptedPrivateKey st.passphrase with
  | .error e => .error e
  | .ok sk =>
    match PGPService.readPublicKey publicKey with
    | .error e => .error e
    | .ok pk =>
      .ok { st with
            privateKey := some sk
            publicKey := some pk
            privateKeyEncryptedText := encryptedPrivateKey
            publicKeyText := publicKey }

/-- OpenE2EE.exportMasterKeys: return the stored armored pair as held;
pure accessor, never fails. -/
def exportMasterKeys (st : OpenE2EE) : MasterKeys :=
  { privateKey := st.privateKeyEncryptedText
    publicKey := st.publicKeyText }

/-- OpenE2EE.encrypt: fresh session key, asymmetric wrap of the key
(signed by self, to self), symmetric encryption of the data, packed into
one envelope.  The key handles are passed as held (possibly absent). -/
def encrypt (st : OpenE2EE) (fresh : Nat) (data : Data) :
    Except PGPError MessageItemEncrypted :=
  match PGPService.generateEncryptionKey st.publicKey fresh with
  | .error e => .error e
  | .ok key =>
    match PGPService.encryptAsymmetric st.privateKey [st.publicKey] key with
    | .error e => .error e
    | .ok encryptedKey =>
      match PGPService.encrypt key data with
      | .error e => .error e
      | .ok encryptedData =>
        .ok { key := key
              encryptedMessage := writeEnvelope encryptedKey encryptedData }

/-- OpenE2EE.decrypt: unpack the envelope, parse the external
verification keys, unwrap the session key verifying against
{own public key} plus the external keys, then symmetrically decrypt the
data.  The TypeScript default for `externalEncryptionKeys` is `[]`. -/
def decrypt (st : OpenE2EE) (encryptedMessage : Data)
    (externalEncryptionKeys : List Data) : Except PGPError MessageItem :=
  match readEnvelope encryptedMessage with
  | .error e => .error e
  | .ok (encryptedKey, encryptedData) =>
    match readPublicKeys externalEncryptionKeys with
    | .error e => .error e
    | .ok ext =>
      match PGPService.decryptAsymmetric st.privateKey
          (st.publicKey :: ext.map some) encryptedKey with
      | .error e => .error e
      | .ok key =>
        match PGPService.decrypt key encryptedData with
        | .error e => .error e
        | .ok data => .ok { key := key, data := data }

/-- OpenE2EE.share: unpack the input envelope, parse the receiver key,
unwrap the session key (verified against own key only), re-wrap it for
{self, receiver} signed by self, and repack with the original
encryptedData blob untouched. -/
def share (st : OpenE2EE) (receiverPublicKey encryptedMessage : Data) :
    Except PGPError ShareItemOut :=
  match readEnvelope encryptedMessage with
  | .error e => .error e
  | .ok (encryptedKey, encryptedData) =>
    match PGPService.readPublicKey receiverPublicKey with
    | .error e => .error e
    | .ok receiverPublicKeyObj =>
      match PGPService.decryptAsymmetric st.privateKey [st.publicKey]
          encryptedKey with
      | .error e => .error e
      | .ok sharedKey =>
        match PGPService.encryptAsymmetric st.privateKey
            [st.publicKey, some receiverPublicKeyObj] sharedKey with
        | .error e => .error e
        | .ok receiverEncryptedKey =>
          .ok { senderPublicKey := st.publicKeyText
                receiverEncryptedMessage :=
                  writeEnvelope receiverEncryptedKey encryptedData }

/-- OpenE2EE.shareNew: parse the receiver key, encrypt the fresh
plaintext (own envelope), re-wrap the same session key for {receiver}
only signed by self, and repack with the encryptedData blob extracted
from the own envelope. -/
def shareNew (st : OpenE2EE) (fresh : Nat) (receiverPublicKey data : Data) :
    Except PGPError ShareNewItemOut :=
  match PGPService.readPublicKey receiverPublicKey with
  | .error e => .error e
  | .ok receiverPublicKeyObj =>
    match st.encrypt fresh data with
    | .error e => .error e
    | .ok mi =>
      match PGPService.encryptAsymmetric st.privateKey
          [some receiverPublicKeyObj] mi.key with
      | .error e => .error e
      | .ok receiverEncryptedKey =>
        match readEnvelope mi.encryptedMessage with
        | .error e => .error e
        | .ok (_, encryptedData) =>
          .ok { senderPublicKey := st.publicKeyText
                senderEncryptedMessage := mi.encryptedMessage
                receiverEncryptedMessage :=
                  writeEnvelope receiverEncryptedKey encryptedData }

/-- OpenE2EE.receive: decrypt with the verification trust set extended by
exactly the claimed sender's public key. -/
def receive (st : OpenE2EE) (senderPublicKey encryptedMessage : Data) :
    Except PGPError MessageItem :=
  st.decrypt encryptedMessage [senderPublicKey]

end OpenE2EE

/-- State of an identity right after a successful
`load(armoredPriv n p, armoredPub m)` on a fresh `new u p` (the two
halves need not come from the same key pair; `load` performs no
consistency check). -/
def identAfterLoad (u p : Data) (n m : Nat) : OpenE2EE :=
  { passphrase := p
    userId := u
    privateKey := some ⟨n⟩
    privateKeyEncryptedText := .armoredPriv n p
    publicKey := some ⟨m⟩
    publicKeyText := .armoredPub m }

/-- The identity holds a matching key pair `n`: both handles populated
from the same pair, with the armored public text to match.  This is what
`build` establishes, and what `load` establishes exactly when its two
arguments are the two halves of one pair. -/
def holdsKeyPair (st : OpenE2EE) (n : Nat) : Prop :=
  st.privateKey = some ⟨n⟩ ∧ st.publicKey = some ⟨n⟩ ∧
    st.publicKeyText = .armoredPub n

/-- The computation failed, and not with a `state`-kind error. -/
def failsNotState {α : Type} (r : Except PGPError α) : Prop :=
  ∃ e, r = Except.error e ∧ e.kind ≠ ErrKind.state

/-- Modelled from the spec: the byte-level envelope codec
(`writeEncryptedMessage` from ./models, not under src/).  The spec fixes
only the contract — `read(write(a,b)) = (a,b)` for all strings, immune to
delimiter collision, via length-prefixing or similar (section 4.2).  The
packing is modelled on the underlying character lists: a unary length
prefix (`a.length` copies of '0'), a '1' terminator, then the two blobs
concatenated. -/
def packBlobs (a b : List Char) : List Char :=
  List.replicate a.length '0' ++ '1' :: (a ++ b)

/-- Modelled from the spec: the byte-level envelope codec
(`readEncryptedMessage` from ./models, not under src/): recover the unary
length prefix, the terminator, and split the remainder at the recovered
length.  Returns `none` on a string that is not a packed envelope. -/
def unpackBlobs (s : List Char) : Option (List Char × List Char) :=
  let n := (s.takeWhile (fun c => c == '0')).length
  match s.dropWhile (fun c => c == '0') with
  | '1' :: t => some (t.take n, t.drop n)
  | _ => none

/-- Modelled from the spec: writeEncryptedMessage from ./models — pack a
wrapped-key blob and an encrypted-data blob into one envelope string. -/
def writeEncryptedMessage (encryptedKey encryptedData : String) : String :=
  ⟨packBlobs encryptedKey.data encryptedData.data⟩

/-- Modelled from the spec: readEncryptedMessage from ./models — unpack
an envelope string into the wrapped-key and encrypted-data blobs. -/
def readEncryptedMessage (s : String) : Option (String × String) :=
  (unpackBlobs s.data).map (fun p => (⟨p.1⟩, ⟨p.2⟩))

/-- Taking the '0'-prefix of a packed blob stops exactly at the '1'
terminator. -/
theorem takeWhile_pack (n : Nat) (r : List Char) :
    (List.replicate n '0' ++ '1' :: r).takeWhile (fun c => c == '0') =
      List.replicate n '0' := by
  induction n with
  | zero => simp [List.takeWhile]
  | succ k ih =>
    rw [List.replicate_succ, List.cons_append, List.takeWhile_cons]
    simp [ih]

/-- Dropping the '0'-prefix of a packed blob leaves the terminator and
the payload. -/
theorem dropWhile_pack (n : Nat) (r : List Char) :
    (List.replicate n '0' ++ '1' :: r).dropWhile (fun c => c == '0') =
      '1' :: r := by
  induction n with
  | zero => simp [List.dropWhile]
  | succ k ih =>
    rw [List.replicate_succ, List.cons_append, List.dropWhile_cons]
    simp [ih]

/-- Splitting a concatenation at the length of its first part recovers
both parts. -/
theorem take_drop_append (a b : List Char) :
    (a ++ b).take a.length = a ∧ (a ++ b).drop a.length = b := by
  induction a with
  | nil => simp
  | cons c cs ih => simp [ih]

/-- The list-level codec round trip. -/
theorem unpackBlobs_packBlobs (a b : List Char) :
    unpackBlobs (packBlobs a b) = some (a, b) := by
  unfold packBlobs unpackBlobs
  rw [takeWhile_pack, dropWhile_pack]
  simp [take_drop_append]

/-- C8: for all strings a and b — including strings containing any
delimiter characters the codec uses internally — the envelope codec
satisfies read(write(a, b)) = (a, b): packing a wrapped-key blob and an
encrypted-data blob into one envelope string and unpacking it recovers
both blobs unchanged. -/
theorem readEncryptedMessage_writeEncryptedMessage (a b : String) :
    readEncryptedMessage (writeEncryptedMessage a b) = some (a, b) := by
  unfold readEncryptedMessage writeEncryptedMessage
  rw [show (⟨packBlobs a.data b.data⟩ : String).data = packBlobs a.data b.data from rfl]
  rw [unpackBlobs_packBlobs]
  rfl

/-- C10: calling exportMasterKeys on an identity before build or load has
completed does not fail: it returns the pair of empty strings (the field
initializers), rather than raising a state error. -/
theorem exportMasterKeys_before_init (u p : Data) :
    (OpenE2EE.new u p).exportMasterKeys =
      { privateKey := Data.raw "", publicKey := Data.raw "" } := rfl

/-- Failing to unpack an envelope always yields the envelope-format
error. -/
theorem readEnvelope_error {d : Data} {e : PGPError}
    (h : readEnvelope d = .error e) :
    e = ⟨"readEncryptedMessage", .envelopeFormat⟩ := by
  cases d <;> simp_all [readEnvelope]

/-- Failing to parse a public key always yields the key-parse error. -/
theorem readPublicKey_error {d : Data} {e : PGPError}
    (h : PGPService.readPublicKey d = .error e) :
    e = ⟨"pgp.readPublicKey", .keyParse⟩ := by
  cases d <;> simp_all [PGPService.readPublicKey]

/-- Failing to parse any of the external keys always yields the key-parse
error. -/
theorem readPublicKeys_error : ∀ {ds : List Data} {e : PGPError},
    readPublicKeys ds = .error e → e = ⟨"pgp.readPublicKey", .keyParse⟩ := by
  intro ds
  induction ds with
  | nil => intro e h; simp [readPublicKeys] at h
  | cons d ds ih =>
    intro e h
    unfold readPublicKeys at h
    cases hd : PGPService.readPublicKey d with
    | error e' =>
      rw [hd] at h
      cases h
      exact readPublicKey_error hd
    | ok k =>
      rw [hd] at h
      cases hds : readPublicKeys ds with
      | error e' => rw [hds] at h; cases h; exact ih hds
      | ok ks => rw [hds] at h; cases h

/-- Asymmetric unwrap with an absent private-key handle always fails, with
the decrypt-step tag and never with a state error. -/
theorem decryptAsymmetric_none (vks : List (Option PGPPublicKey)) (d : Data) :
    ∃ e, PGPService.decryptAsymmetric none vks d = .error e ∧
      e.scope = "pgp.decryptAsymmetric" ∧ e.kind ≠ ErrKind.state := by
  cases d <;> exact ⟨_, rfl, rfl, by decide⟩

/-- On an identity whose key handles are both absent (no build or load has
completed), every one of the five envelope operations fails, and never
with a `state`-kind error: the absent handles are passed through to the
crypto provider, which rejects them, or an earlier parse step fails. -/
theorem unready_ops_fail (st : OpenE2EE)
    (h1 : st.privateKey = none) (h2 : st.publicKey = none) :
    (∀ fresh d, failsNotState (st.encrypt fresh d)) ∧
    (∀ msg ext, failsNotState (st.decrypt msg ext)) ∧
    (∀ rpk msg, failsNotState (st.share rpk msg)) ∧
    (∀ fresh rpk d, failsNotState (st.shareNew fresh rpk d)) ∧
    (∀ spk msg, failsNotState (st.receive spk msg)) := by
  have henc : ∀ fresh d, failsNotState (st.encrypt fresh d) := by
    intro fresh d
    unfold OpenE2EE.encrypt
    rw [h2]
    exact ⟨_, rfl, by decide⟩
  have hdec : ∀ msg ext, failsNotState (st.decrypt msg ext) := by
    intro msg ext
    unfold OpenE2EE.decrypt
    cases hre : readEnvelope msg with
    | error e =>
      refine ⟨e, rfl, ?_⟩
      rw [readEnvelope_error hre]
      decide
    | ok pr =>
      obtain ⟨k, dat⟩ := pr
      cases hrp : readPublicKeys ext with
      | error e =>
        refine ⟨e, rfl, ?_⟩
        rw [readPublicKeys_error hrp]
        decide
      | ok ks =>
        obtain ⟨e, he, _, hk⟩ :=
          decryptAsymmetric_none (st.publicKey :: ks.map some) k
        rw [h1]
        dsimp only
        rw [he]
        exact ⟨e, rfl, hk⟩
  have hsh : ∀ rpk msg, failsNotState (st.share rpk msg) := by
    intro rpk msg
    unfold OpenE2EE.share
    cases hre : readEnvelope msg with
    | error e =>
      refine ⟨e, rfl, ?_⟩
      rw [readEnvelope_error hre]
      decide
    | ok pr =>
      obtain ⟨k, dat⟩ := pr
      cases hrp : PGPService.readPublicKey rpk with
      | error e =>
        refine ⟨e, rfl, ?_⟩
        rw [readPublicKey_error hrp]
        decide
      | ok robj =>
        obtain ⟨e, he, _, hk⟩ := decryptAsymmetric_none [st.publicKey] k
        rw [h1]
        dsimp only
        rw [he]
        exact ⟨e, rfl, hk⟩
  have hshn : ∀ fresh rpk d, failsNotState (st.shareNew fresh rpk d) := by
    intro fresh rpk d
    unfold OpenE2EE.shareNew
    cases hrp : PGPService.readPublicKey rpk with
    | error e =>
      refine ⟨e, rfl, ?_⟩
      rw [readPublicKey_error hrp]
      decide
    | ok robj =>
      obtain ⟨e, he, hk⟩ := henc fresh d
      rw [he]
      exact ⟨e, rfl, hk⟩
  exact ⟨henc, hdec, hsh, hshn, fun spk msg => hdec msg [spk]⟩

/-- C6 counterexample: on an identity on which neither build nor load has
completed, encrypt does not fail with a state error — it proceeds into
the crypto provider with the absent public-key handle and fails there,
with the provider's missing-key error tagged with the provider operation
name. -/
theorem encrypt_unready_provider_error :
    (OpenE2EE.new (.raw "u") (.raw "p")).encrypt 0 (.raw "d") =
      .error ⟨"pgp.generateEncryptionKey", .missingKey⟩ ∧
    ErrKind.missingKey ≠ ErrKind.state := ⟨rfl, by decide⟩

/-- C6 (amended): on an identity on which neither build nor load has
completed, every call to encrypt, decrypt, share, shareNew, or receive
fails (it never returns a normal result), but not with a state error: the
absent key handles are passed unchecked into the crypto provider, so the
failure is the provider's missing-key rejection or an earlier
parse/format error from the other inputs. -/
theorem unready_operations_all_fail (st : OpenE2EE)
    (h1 : st.privateKey = none) (h2 : st.publicKey = none) :
    (∀ fresh d, failsNotState (st.encrypt fresh d)) ∧
    (∀ msg ext, failsNotState (st.decrypt msg ext)) ∧
    (∀ rpk msg, failsNotState (st.share rpk msg)) ∧
    (∀ fresh rpk d, failsNotState (st.shareNew fresh rpk d)) ∧
    (∀ spk msg, failsNotState (st.receive spk msg)) :=
  unready_ops_fail st h1 h2

/-- C6 witness: the amended theorem applied to a freshly constructed
identity and concrete arguments for each of the five operations. -/
theorem unready_operations_all_fail_witness :
    failsNotState ((OpenE2EE.new (.raw "u") (.raw "p")).encrypt 0 (.raw "d")) ∧
    failsNotState ((OpenE2EE.new (.raw "u") (.raw "p")).decrypt (.raw "m") []) ∧
    failsNotState
      ((OpenE2EE.new (.raw "u") (.raw "p")).share (.armoredPub 1) (.raw "m")) ∧
    failsNotState
      ((OpenE2EE.new (.raw "u") (.raw "p")).shareNew 0 (.armoredPub 1) (.raw "d")) ∧
    failsNotState
      ((OpenE2EE.new (.raw "u") (.raw "p")).receive (.armoredPub 1) (.raw "m")) := by
  have h := unready_operations_all_fail (OpenE2EE.new (.raw "u") (.raw "p")) rfl rfl
  exact ⟨h.1 0 (.raw "d"), h.2.1 (.raw "m") [], h.2.2.1 (.armoredPub 1) (.raw "m"),
         h.2.2.2.1 0 (.armoredPub 1) (.raw "d"), h.2.2.2.2 (.armoredPub 1) (.raw "m")⟩

/-- C7: for an identity constructed with passphrase p, loading a
well-formed private key protected by a different passphrase fails with
the authentication error; the constructed state is unchanged (its key
handles remain unpopulated since `load` assigns them only after both
provider calls succeed), so no encrypt/decrypt/share operation on it can
succeed. -/
theorem load_wrong_passphrase (u p pw : Data) (n m : Nat) (hne : pw ≠ p) :
    (OpenE2EE.new u p).load (.armoredPriv n pw) (.armoredPub m) =
      .error ⟨"pgp.decryptPrivateKey", .authentication⟩ ∧
    (OpenE2EE.new u p).privateKey = none ∧
    (OpenE2EE.new u p).publicKey = none ∧
    (∀ fresh d, failsNotState ((OpenE2EE.new u p).encrypt fresh d)) ∧
    (∀ msg ext, failsNotState ((OpenE2EE.new u p).decrypt msg ext)) ∧
    (∀ rpk msg, failsNotState ((OpenE2EE.new u p).share rpk msg)) := by
  have h := unready_ops_fail (OpenE2EE.new u p) rfl rfl
  refine ⟨?_, rfl, rfl, h.1, h.2.1, h.2.2.1⟩
  unfold OpenE2EE.load PGPService.decryptPrivateKey PGPService.readPrivateKey
  dsimp only [OpenE2EE.new]
  rw [if_neg hne]

/-- C7 witness: the theorem applied at a concrete wrong passphrase. -/
theorem load_wrong_passphrase_witness :
    (OpenE2EE.new (.raw "u") (.raw "p")).load
        (.armoredPriv 0 (.raw "q")) (.armoredPub 0) =
      .error ⟨"pgp.decryptPrivateKey", .authentication⟩ ∧
    (OpenE2EE.new (.raw "u") (.raw "p")).privateKey = none ∧
    (OpenE2EE.new (.raw "u") (.raw "p")).publicKey = none ∧
    (∀ fresh d, failsNotState ((OpenE2EE.new (.raw "u") (.raw "p")).encrypt fresh d)) ∧
    (∀ msg ext, failsNotState ((OpenE2EE.new (.raw "u") (.raw "p")).decrypt msg ext)) ∧
    (∀ rpk msg, failsNotState ((OpenE2EE.new (.raw "u") (.raw "p")).share rpk msg)) :=
  load_wrong_passphrase (.raw "u") (.raw "p") (.raw "q") 0 0 (by decide)

/-- C1 counterexample: an identity that has completed `load` — with the
two armored halves coming from different key pairs, which `load` accepts
without any consistency check — produces envelopes that its own decrypt
cannot open: encrypt wraps the session key to the loaded public key while
decrypt unwraps with the unrelated loaded private key. -/
theorem roundtrip_fails_after_mismatched_load :
    (OpenE2EE.new (.raw "u") (.raw "p")).load
        (.armoredPriv 0 (.raw "p")) (.armoredPub 1) =
      .ok (identAfterLoad (.raw "u") (.raw "p") 0 1) ∧
    (identAfterLoad (.raw "u") (.raw "p") 0 1).encrypt 5 (.raw "d") =
      .ok ⟨.hexKey 5, .env (.asym 0 [1] (.hexKey 5)) (.sym (.hexKey 5) (.raw "d"))⟩ ∧
    (identAfterLoad (.raw "u") (.raw "p") 0 1).decrypt
        (.env (.asym 0 [1] (.hexKey 5)) (.sym (.hexKey 5) (.raw "d"))) [] =
      .error ⟨"pgp.decryptAsymmetric", .decryption⟩ :=
  ⟨rfl, rfl, rfl⟩

/-- C1 (amended): for every identity holding a matching key pair — as
established by build, or by load of a private and public key from the
same pair — and every plaintext d, encrypt(d) followed by decrypt of the
returned envelope (with the empty external-key list) succeeds and returns
the plaintext d together with the session key that encrypt returned. -/
theorem encrypt_decrypt_roundtrip (st : OpenE2EE) (n : Nat)
    (h : holdsKeyPair st n) (fresh : Nat) (d : Data) :
    st.encrypt fresh d =
      .ok ⟨.hexKey fresh,
           .env (.asym n [n] (.hexKey fresh)) (.sym (.hexKey fresh) d)⟩ ∧
    st.decrypt (.env (.asym n [n] (.hexKey fresh)) (.sym (.hexKey fresh) d)) [] =
      .ok ⟨.hexKey fresh, d⟩ := by
  obtain ⟨h1, h2, h3⟩ := h
  constructor
  · unfold OpenE2EE.encrypt
    rw [h1, h2]
    simp [PGPService.generateEncryptionKey, PGPService.encryptAsymmetric,
          PGPService.encrypt, writeEnvelope]
  · unfold OpenE2EE.decrypt
    rw [h1, h2]
    simp [readEnvelope, readPublicKeys, PGPService.decryptAsymmetric,
          PGPService.decrypt]

/-- C1 witness: the round trip on a concrete identity loaded with the two
halves of pair 3. -/
theorem encrypt_decrypt_roundtrip_witness :
    (identAfterLoad (.raw "u") (.raw "p") 3 3).encrypt 5 (.raw "d") =
      .ok ⟨.hexKey 5, .env (.asym 3 [3] (.hexKey 5)) (.sym (.hexKey 5) (.raw "d"))⟩ ∧
    (identAfterLoad (.raw "u") (.raw "p") 3 3).decrypt
        (.env (.asym 3 [3] (.hexKey 5)) (.sym (.hexKey 5) (.raw "d"))) [] =
      .ok ⟨.hexKey 5, .raw "d"⟩ :=
  encrypt_decrypt_roundtrip (identAfterLoad (.raw "u") (.raw "p") 3 3) 3
    ⟨rfl, rfl, rfl⟩ 5 (.raw "d")

/-- C2 counterexample: a sender identity that has completed `load` with
mismatched key-pair halves (accepted by `load` without a consistency
check) is ready in the spec's sense, yet its `share` of its own envelope
fails: the wrapped key was encrypted to the loaded public key and cannot
be unwrapped by the unrelated loaded private key, so the receiver never
gets a decryptable envelope. -/
theorem share_receive_fails_after_mismatched_load :
    (OpenE2EE.new (.raw "u") (.raw "p")).load
        (.armoredPriv 0 (.raw "p")) (.armoredPub 1) =
      .ok (identAfterLoad (.raw "u") (.raw "p") 0 1) ∧
    (OpenE2EE.new (.raw "v") (.raw "q")).load
        (.armoredPriv 2 (.raw "q")) (.armoredPub 2) =
      .ok (identAfterLoad (.raw "v") (.raw "q") 2 2) ∧
    (identAfterLoad (.raw "u") (.raw "p") 0 1).encrypt 5 (.raw "d") =
      .ok ⟨.hexKey 5, .env (.asym 0 [1] (.hexKey 5)) (.sym (.hexKey 5) (.raw "d"))⟩ ∧
    (identAfterLoad (.raw "u") (.raw "p") 0 1).share
        (identAfterLoad (.raw "v") (.raw "q") 2 2).publicKeyText
        (.env (.asym 0 [1] (.hexKey 5)) (.sym (.hexKey 5) (.raw "d"))) =
      .error ⟨"pgp.decryptAsymmetric", .decryption⟩ :=
  ⟨rfl, rfl, rfl, rfl⟩

/-- C2 (amended): for every pair of identities A and B each holding a
matching key pair, and every plaintext d, A encrypting d, then sharing
the envelope to B's public key, then B receiving it with A's public key,
succeeds and recovers the original plaintext and the original session
key. -/
theorem share_receive_roundtrip (A B : OpenE2EE) (a b : Nat)
    (hA : holdsKeyPair A a) (hB : holdsKeyPair B b) (fresh : Nat) (d : Data) :
    A.encrypt fresh d =
      .ok ⟨.hexKey fresh,
           .env (.asym a [a] (.hexKey fresh)) (.sym (.hexKey fresh) d)⟩ ∧
    A.share B.publicKeyText
        (.env (.asym a [a] (.hexKey fresh)) (.sym (.hexKey fresh) d)) =
      .ok ⟨A.publicKeyText,
           .env (.asym a [a, b] (.hexKey fresh)) (.sym (.hexKey fresh) d)⟩ ∧
    B.receive A.publicKeyText
        (.env (.asym a [a, b] (.hexKey fresh)) (.sym (.hexKey fresh) d)) =
      .ok ⟨.hexKey fresh, d⟩ := by
  obtain ⟨hA1, hA2, hA3⟩ := hA
  obtain ⟨hB1, hB2, hB3⟩ := hB
  refine ⟨?_, ?_, ?_⟩
  · unfold OpenE2EE.encrypt
    rw [hA1, hA2]
    simp [PGPService.generateEncryptionKey, PGPService.encryptAsymmetric,
          PGPService.encrypt, writeEnvelope]
  · unfold OpenE2EE.share
    rw [hA1, hA2, hB3]
    simp [readEnvelope, PGPService.readPublicKey, PGPService.decryptAsymmetric,
          PGPService.encryptAsymmetric, writeEnvelope]
  · unfold OpenE2EE.receive OpenE2EE.decrypt
    rw [hB1, hB2, hA3]
    simp [readEnvelope, readPublicKeys, PGPService.readPublicKey,
          PGPService.decryptAsymmetric, PGPService.decrypt]

/-- C2 witness: the share/receive round trip between two concrete
identities loaded with the matching pairs 1 and 2. -/
theorem share_receive_roundtrip_witness :
    (identAfterLoad (.raw "u") (.raw "p") 1 1).encrypt 5 (.raw "d") =
      .ok ⟨.hexKey 5, .env (.asym 1 [1] (.hexKey 5)) (.sym (.hexKey 5) (.raw "d"))⟩ ∧
    (identAfterLoad (.raw "u") (.raw "p") 1 1).share
        (identAfterLoad (.raw "v") (.raw "q") 2 2).publicKeyText
        (.env (.asym 1 [1] (.hexKey 5)) (.sym (.hexKey 5) (.raw "d"))) =
      .ok ⟨(identAfterLoad (.raw "u") (.raw "p") 1 1).publicKeyText,
           .env (.asym 1 [1, 2] (.hexKey 5)) (.sym (.hexKey 5) (.raw "d"))⟩ ∧
    (identAfterLoad (.raw "v") (.raw "q") 2 2).receive
        (identAfterLoad (.raw "u") (.raw "p") 1 1).publicKeyText
        (.env (.asym 1 [1, 2] (.hexKey 5)) (.sym (.hexKey 5) (.raw "d"))) =
      .ok ⟨.hexKey 5, .raw "d"⟩ :=
  share_receive_roundtrip (identAfterLoad (.raw "u") (.raw "p") 1 1)
    (identAfterLoad (.raw "v") (.raw "q") 2 2) 1 2
    ⟨rfl, rfl, rfl⟩ ⟨rfl, rfl, rfl⟩ 5 (.raw "d")

/-- C3 counterexample: an identity loaded with its matching pair 0
accepts, via receive, an envelope whose wrapped key was signed by its own
key 0 even though the claimed sender is the unrelated key 1: the code
always includes the receiver's own public key in the verification set, so
receive does not restrict trust to exactly the claimed sender. -/
theorem receive_accepts_own_signature :
    (identAfterLoad (.raw "u") (.raw "p") 0 0).receive (.armoredPub 1)
        (.env (.asym 0 [0] (.hexKey 7)) (.sym (.hexKey 7) (.raw "d"))) =
      .ok ⟨.hexKey 7, .raw "d"⟩ ∧
    (0 : Nat) ≠ 1 := ⟨rfl, by decide⟩

/-- C3 (amended): receive(senderPublicKey, envelope) equals
decrypt(envelope, [senderPublicKey]); the signature-verification trust
set is {receiver's own public key, claimed sender}: an envelope whose
wrapped key was signed by any key other than these two fails with the
signature-verification error, while one signed by the receiver's own key
is accepted by the unwrap step. -/
theorem receive_trust_set :
    (∀ (st : OpenE2EE) (spk msg : Data),
      st.receive spk msg = st.decrypt msg [spk]) ∧
    (∀ (st : OpenE2EE) (n m sn sig : Nat) (recips : List Nat)
        (payload ed : Data),
      st.privateKey = some ⟨n⟩ → st.publicKey = some ⟨m⟩ →
      sig ≠ m → sig ≠ sn → n ∈ recips →
      st.receive (.armoredPub sn) (.env (.asym sig recips payload) ed) =
        .error ⟨"pgp.decryptAsymmetric", .signatureVerification⟩) ∧
    (∀ (st : OpenE2EE) (n m sn : Nat) (recips : List Nat) (payload : Data),
      st.privateKey = some ⟨n⟩ → st.publicKey = some ⟨m⟩ → n ∈ recips →
      PGPService.decryptAsymmetric st.privateKey [st.publicKey, some ⟨sn⟩]
          (.asym m recips payload) = .ok payload) := by
  refine ⟨fun st spk msg => rfl, ?_, ?_⟩
  · intro st n m sn sig recips payload ed h1 h2 hm hs hr
    unfold OpenE2EE.receive OpenE2EE.decrypt
    rw [h1, h2]
    simp [readEnvelope, readPublicKeys, PGPService.readPublicKey,
          PGPService.decryptAsymmetric, hr, hm, hs]
  · intro st n m sn recips payload h1 h2 hr
    rw [h1, h2]
    simp [PGPService.decryptAsymmetric, hr]

/-- C3 witness: the amended theorem applied to a concrete identity
holding pair 0: receive agrees with decrypt on concrete arguments, a
third-party signature (key 5) outside {own key 0, claimed sender 1} is
rejected, and a signature by the identity's own key 0 passes the unwrap
step. -/
theorem receive_trust_set_witness :
    (identAfterLoad (.raw "u") (.raw "p") 0 0).receive (.armoredPub 1) (.raw "x") =
      (identAfterLoad (.raw "u") (.raw "p") 0 0).decrypt (.raw "x") [.armoredPub 1] ∧
    (identAfterLoad (.raw "u") (.raw "p") 0 0).receive (.armoredPub 1)
        (.env (.asym 5 [0] (.hexKey 7)) (.sym (.hexKey 7) (.raw "d"))) =
      .error ⟨"pgp.decryptAsymmetric", .signatureVerification⟩ ∧
    PGPService.decryptAsymmetric
        (identAfterLoad (.raw "u") (.raw "p") 0 0).privateKey
        [(identAfterLoad (.raw "u") (.raw "p") 0 0).publicKey, some ⟨1⟩]
        (.asym 0 [0] (.hexKey 7)) = .ok (.hexKey 7) :=
  ⟨receive_trust_set.1 (identAfterLoad (.raw "u") (.raw "p") 0 0)
      (.armoredPub 1) (.raw "x"),
   receive_trust_set.2.1 (identAfterLoad (.raw "u") (.raw "p") 0 0)
      0 0 1 5 [0] (.hexKey 7) (.sym (.hexKey 7) (.raw "d"))
      rfl rfl (by decide) (by decide) (by decide),
   receive_trust_set.2.2 (identAfterLoad (.raw "u") (.raw "p") 0 0)
      0 0 1 [0] (.hexKey 7) rfl rfl (by decide)⟩

/-- C4: for every identity with populated key handles and every input
envelope its decrypt can open, share returns an envelope whose
encryptedData component is the input's encryptedData blob unchanged,
while the wrapped-key component is replaced by the recovered session key
re-encrypted for the recipient set {self, receiver} and signed with the
sharer's private key. -/
theorem share_preserves_encrypted_data (st : OpenE2EE)
    (sk : PGPPrivateKey) (pk : PGPPublicKey) (r : Nat) (ek ed : Data)
    (mi : MessageItem)
    (h1 : st.privateKey = some sk) (h2 : st.publicKey = some pk)
    (hopen : st.decrypt (.env ek ed) [] = .ok mi) :
    st.share (.armoredPub r) (.env ek ed) =
      .ok ⟨st.publicKeyText,
           .env (.asym sk.keyId [pk.keyId, r] mi.key) ed⟩ := by
  unfold OpenE2EE.decrypt at hopen
  rw [h1, h2] at hopen
  dsimp only [readEnvelope, readPublicKeys] at hopen
  cases hda : PGPService.decryptAsymmetric (some sk) [some pk] ek with
  | error e =>
    rw [show ((some pk : Option PGPPublicKey) :: List.map some []) = [some pk] from rfl,
        hda] at hopen
    cases hopen
  | ok key =>
    rw [show ((some pk : Option PGPPublicKey) :: List.map some []) = [some pk] from rfl,
        hda] at hopen
    dsimp only at hopen
    cases hsd : PGPService.decrypt key ed with
    | error e => rw [hsd] at hopen; cases hopen
    | ok dat =>
      rw [hsd] at hopen
      cases hopen
      unfold OpenE2EE.share
      rw [h1, h2]
      dsimp only [readEnvelope, PGPService.readPublicKey]
      rw [hda]
      simp [PGPService.encryptAsymmetric, writeEnvelope]

/-- C4 witness: the theorem applied to a concrete identity holding pair 0
and a concrete envelope it can open, shared to key 4. -/
theorem share_preserves_encrypted_data_witness :
    (identAfterLoad (.raw "u") (.raw "p") 0 0).share (.armoredPub 4)
        (.env (.asym 0 [0] (.hexKey 3)) (.sym (.hexKey 3) (.raw "d"))) =
      .ok ⟨(identAfterLoad (.raw "u") (.raw "p") 0 0).publicKeyText,
           .env (.asym 0 [0, 4] (.hexKey 3)) (.sym (.hexKey 3) (.raw "d"))⟩ :=
  share_preserves_encrypted_data (identAfterLoad (.raw "u") (.raw "p") 0 0)
    ⟨0⟩ ⟨0⟩ 4 (.asym 0 [0] (.hexKey 3)) (.sym (.hexKey 3) (.raw "d"))
    ⟨.hexKey 3, .raw "d"⟩ rfl rfl rfl

/-- C5 counterexample: a sender identity that has completed `load` with
mismatched key-pair halves is ready in the spec's sense, yet after
shareNew the sender's own decrypt of the sender envelope fails: encrypt
wrapped the session key to the loaded public key, which the unrelated
loaded private key cannot unwrap. -/
theorem shareNew_fails_after_mismatched_load :
    (OpenE2EE.new (.raw "u") (.raw "p")).load
        (.armoredPriv 0 (.raw "p")) (.armoredPub 1) =
      .ok (identAfterLoad (.raw "u") (.raw "p") 0 1) ∧
    (identAfterLoad (.raw "u") (.raw "p") 0 1).shareNew 5 (.armoredPub 2) (.raw "d") =
      .ok ⟨.armoredPub 1,
           .env (.asym 0 [1] (.hexKey 5)) (.sym (.hexKey 5) (.raw "d")),
           .env (.asym 0 [2] (.hexKey 5)) (.sym (.hexKey 5) (.raw "d"))⟩ ∧
    (identAfterLoad (.raw "u") (.raw "p") 0 1).decrypt
        (.env (.asym 0 [1] (.hexKey 5)) (.sym (.hexKey 5) (.raw "d"))) [] =
      .error ⟨"pgp.decryptAsymmetric", .decryption⟩ :=
  ⟨rfl, rfl, rfl⟩

/-- C5 (amended): for every identity A holding a matching key pair, every
receiver B holding a matching key pair, and every plaintext d,
shareNew(B's public key, d) encrypts d once, re-wraps the same session
key asymmetrically for the recipient set {receiver} only (signed by A),
and returns a sender envelope and a receiver envelope whose encryptedData
components are byte-identical; A's own decrypt of the sender envelope and
B's receive (with A's public key) of the receiver envelope both recover d
and the session key. -/
theorem shareNew_bulk_reuse (A B : OpenE2EE) (a b : Nat)
    (hA : holdsKeyPair A a) (hB : holdsKeyPair B b) (fresh : Nat) (d : Data) :
    A.shareNew fresh B.publicKeyText d =
      .ok ⟨A.publicKeyText,
           .env (.asym a [a] (.hexKey fresh)) (.sym (.hexKey fresh) d),
           .env (.asym a [b] (.hexKey fresh)) (.sym (.hexKey fresh) d)⟩ ∧
    A.decrypt (.env (.asym a [a] (.hexKey fresh)) (.sym (.hexKey fresh) d)) [] =
      .ok ⟨.hexKey fresh, d⟩ ∧
    B.receive A.publicKeyText
        (.env (.asym a [b] (.hexKey fresh)) (.sym (.hexKey fresh) d)) =
      .ok ⟨.hexKey fresh, d⟩ := by
  obtain ⟨hA1, hA2, hA3⟩ := hA
  obtain ⟨hB1, hB2, hB3⟩ := hB
  refine ⟨?_, ?_, ?_⟩
  · unfold OpenE2EE.shareNew OpenE2EE.encrypt
    rw [hA1, hA2, hB3]
    simp [PGPService.readPublicKey, PGPService.generateEncryptionKey,
          PGPService.encryptAsymmetric, PGPService.encrypt, writeEnvelope,
          readEnvelope]
  · unfold OpenE2EE.decrypt
    rw [hA1, hA2]
    simp [readEnvelope, readPublicKeys, PGPService.decryptAsymmetric,
          PGPService.decrypt]
  · unfold OpenE2EE.receive OpenE2EE.decrypt
    rw [hB1, hB2, hA3]
    simp [readEnvelope, readPublicKeys, PGPService.readPublicKey,
          PGPService.decryptAsymmetric, PGPService.decrypt]

/-- C5 witness: shareNew between concrete identities holding the matching
pairs 1 and 2. -/
theorem shareNew_bulk_reuse_witness :
    (identAfterLoad (.raw "u") (.raw "p") 1 1).shareNew 5
        (identAfterLoad (.raw "v") (.raw "q") 2 2).publicKeyText (.raw "d") =
      .ok ⟨(identAfterLoad (.raw "u") (.raw "p") 1 1).publicKeyText,
           .env (.asym 1 [1] (.hexKey 5)) (.sym (.hexKey 5) (.raw "d")),
           .env (.asym 1 [2] (.hexKey 5)) (.sym (.hexKey 5) (.raw "d"))⟩ ∧
    (identAfterLoad (.raw "u") (.raw "p") 1 1).decrypt
        (.env (.asym 1 [1] (.hexKey 5)) (.sym (.hexKey 5) (.raw "d"))) [] =
      .ok ⟨.hexKey 5, .raw "d"⟩ ∧
    (identAfterLoad (.raw "v") (.raw "q") 2 2).receive
        (identAfterLoad (.raw "u") (.raw "p") 1 1).publicKeyText
        (.env (.asym 1 [2] (.hexKey 5)) (.sym (.hexKey 5) (.raw "d"))) =
      .ok ⟨.hexKey 5, .raw "d"⟩ :=
  shareNew_bulk_reuse (identAfterLoad (.raw "u") (.raw "p") 1 1)
    (identAfterLoad (.raw "v") (.raw "q") 2 2) 1 2
    ⟨rfl, rfl, rfl⟩ ⟨rfl, rfl, rfl⟩ 5 (.raw "d")

/-- Failing to parse a private key always yields the key-parse error. -/
theorem readPrivateKey_error {d : Data} {e : PGPError}
    (h : PGPService.readPrivateKey d = .error e) :
    e = ⟨"pgp.readPrivateKey", .keyParse⟩ := by
  cases d <;> simp_all [PGPService.readPrivateKey]

/-- Every error produced by the asymmetric unwrap carries its operation
tag. -/
theorem decryptAsymmetric_error_scope (sk : Option PGPPrivateKey)
    (vks : List (Option PGPPublicKey)) (d : Data) (e : PGPError)
    (h : PGPService.decryptAsymmetric sk vks d = .error e) :
    e.scope = "pgp.decryptAsymmetric" := by
  unfold PGPService.decryptAsymmetric at h
  cases d
  case asym s r p =>
    cases sk with
    | none => injection h with h'; rw [← h']
    | some k =>
      dsimp only at h
      split at h
      · injection h with h'; rw [← h']
      · split at h
        · split at h
          · exact Except.noConfusion h
          · injection h with h'; rw [← h']
        · injection h with h'; rw [← h']
  all_goals (injection h with h'; rw [← h'])

/-- Every error produced by the asymmetric wrap carries its operation
tag. -/
theorem encryptAsymmetric_error_scope (sk : Option PGPPrivateKey)
    (pks : List (Option PGPPublicKey)) (d : Data) (e : PGPError)
    (h : PGPService.encryptAsymmetric sk pks d = .error e) :
    e.scope = "pgp.encryptAsymmetric" := by
  unfold PGPService.encryptAsymmetric at h
  cases sk with
  | none => injection h with h'; rw [← h']
  | some k =>
    dsimp only at h
    split at h
    · injection h with h'; rw [← h']
    · exact Except.noConfusion h

/-- Every error produced by the symmetric decrypt carries its operation
tag. -/
theorem decrypt_error_scope (k d : Data) (e : PGPError)
    (h : PGPService.decrypt k d = .error e) : e.scope = "pgp.decrypt" := by
  unfold PGPService.decrypt at h
  cases d
  case sym pass payload =>
    dsimp only at h
    split at h
    · exact Except.noConfusion h
    · injection h with h'; rw [← h']
  all_goals (injection h with h'; rw [← h'])

/-- C9: every failing crypto operation carries the name of the operation
that produced it as its tag (tags attached by the tryCatch wrapper, tag
strings verbatim from src/lib/pgp.ts), public operations surface the
inner step's error unchanged — share propagates its internal decrypt
step's error as is — and the tags of share's decrypt step and re-wrap
step are distinct, so a caller can tell which internal step failed. -/
theorem failures_tagged_with_operation :
    (∀ (sk : Option PGPPrivateKey) (vks : List (Option PGPPublicKey))
        (d : Data) (e : PGPError),
      PGPService.decryptAsymmetric sk vks d = .error e →
        e.scope = "pgp.decryptAsymmetric") ∧
    (∀ (sk : Option PGPPrivateKey) (pks : List (Option PGPPublicKey))
        (d : Data) (e : PGPError),
      PGPService.encryptAsymmetric sk pks d = .error e →
        e.scope = "pgp.encryptAsymmetric") ∧
    (∀ (d : Data) (e : PGPError),
      PGPService.readPublicKey d = .error e → e.scope = "pgp.readPublicKey") ∧
    (∀ (k d : Data) (e : PGPError),
      PGPService.decrypt k d = .error e → e.scope = "pgp.decrypt") ∧
    (∀ (pk : Option PGPPublicKey) (fresh : Nat) (e : PGPError),
      PGPService.generateEncryptionKey pk fresh = .error e →
        e.scope = "pgp.generateEncryptionKey") ∧
    (∀ (a p : Data) (e : PGPError),
      PGPService.decryptPrivateKey a p = .error e →
        e.scope = "pgp.readPrivateKey" ∨ e.scope = "pgp.decryptPrivateKey") ∧
    ("pgp.decryptAsymmetric" ≠ ("pgp.encryptAsymmetric" : String)) ∧
    (∀ (st : OpenE2EE) (r : Nat) (ek ed : Data) (e : PGPError),
      PGPService.decryptAsymmetric st.privateKey [st.publicKey] ek = .error e →
        st.share (.armoredPub r) (.env ek ed) = .error e) := by
  refine ⟨decryptAsymmetric_error_scope, encryptAsymmetric_error_scope,
          ?_, decrypt_error_scope, ?_, ?_, by decide, ?_⟩
  · intro d e h
    rw [readPublicKey_error h]
  · intro pk fresh e h
    cases pk with
    | none => injection h with h'; rw [← h']
    | some k => exact Except.noConfusion h
  · intro a p e h
    unfold PGPService.decryptPrivateKey at h
    cases ha : PGPService.readPrivateKey a with
    | error ep =>
      rw [ha] at h
      injection h with h'
      subst h'
      exact Or.inl (by rw [readPrivateKey_error ha])
    | ok lk =>
      rw [ha] at h
      dsimp only at h
      split at h
      · exact Except.noConfusion h
      · injection h with h'; exact Or.inr (by rw [← h'])
  · intro st r ek ed e h
    unfold OpenE2EE.share
    dsimp only [readEnvelope, PGPService.readPublicKey]
    rw [h]

/-- C9 witness: on a freshly constructed identity, share's internal
decrypt step fails (absent private-key handle) and share surfaces exactly
that error, tagged with the decrypt step's operation name, which differs
from the re-wrap step's tag. -/
theorem failures_tagged_with_operation_witness :
    (OpenE2EE.new (.raw "u") (.raw "p")).share (.armoredPub 0)
        (.env (.raw "x") (.raw "y")) =
      .error ⟨"pgp.decryptAsymmetric", .decryption⟩ ∧
    ("pgp.decryptAsymmetric" ≠ ("pgp.encryptAsymmetric" : String)) ∧
    (⟨"pgp.decryptAsymmetric", .decryption⟩ : PGPError).scope =
      "pgp.decryptAsymmetric" :=
  ⟨failures_tagged_with_operation.2.2.2.2.2.2.2
      (OpenE2EE.new (.raw "u") (.raw "p")) 0 (.raw "x") (.raw "y")
      ⟨"pgp.decryptAsymmetric", .decryption⟩ rfl,
   failures_tagged_with_operation.2.2.2.2.2.2.1,
   failures_tagged_with_operation.1 none [none] (.raw "x")
      ⟨"pgp.decryptAsymmetric", .decryption⟩ rfl⟩
